import Mathlib

/-!
# Verification of the glib-log-bridge translation layer

Shallow embedding of the two translation pipelines of the
`glib_log_bridge` package:

* `glib2python.py` — ingress: GLib structured-log writer callback to
  Python `logging` records (`Logger._fields_to_dict`,
  `Logger._get_record`, `Logger.logWriterFunc`, `Logger.logHandlerFunc`).
* `python2glib.py` — egress: Python `logging.Handler` subclasses that
  forward records to GLib (`LoggerHandler._level_to_glib`,
  `LoggerHandler._get_fields*`, `LoggerHandler._convert_fields_dict`,
  `LoggerHandler.emit`, `GLibWriterHandler._convert_fields`).

Machine-level details are modelled as follows: native byte buffers are
`List Nat` (each entry one byte); a C pointer is `Option (List Nat)`
(`none` is the NULL pointer, `some mem` a pointer to memory holding
`mem`); Python `int` is `Int`; Python exceptions are `Except PyErr`.
Python's UTF-8 codec (`str.encode('utf-8')` / `bytes.decode(errors="strict")`)
is embedded as an executable encoder/decoder pair on `List Nat` below.
-/

namespace GlibLogBridge

/-! ## GLib log level flags (GLib.LogLevelFlags numeric values) -/

/-- `GLib.LogLevelFlags.FLAG_RECURSION` (bit 0). -/
def glibFlagRecursion : Nat := 1
/-- `GLib.LogLevelFlags.FLAG_FATAL` (bit 1). -/
def glibFlagFatal : Nat := 2
/-- `GLib.LogLevelFlags.LEVEL_ERROR` (bit 2). -/
def glibLevelError : Nat := 4
/-- `GLib.LogLevelFlags.LEVEL_CRITICAL` (bit 3). -/
def glibLevelCritical : Nat := 8
/-- `GLib.LogLevelFlags.LEVEL_WARNING` (bit 4). -/
def glibLevelWarning : Nat := 16
/-- `GLib.LogLevelFlags.LEVEL_MESSAGE` (bit 5). -/
def glibLevelMessage : Nat := 32
/-- `GLib.LogLevelFlags.LEVEL_INFO` (bit 6). -/
def glibLevelInfo : Nat := 64
/-- `GLib.LogLevelFlags.LEVEL_DEBUG` (bit 7). -/
def glibLevelDebug : Nat := 128
/-- `GLib.LogLevelFlags.LEVEL_MASK`: all bits except the two flag bits
(`~(FLAG_RECURSION | FLAG_FATAL)` as a 32-bit value). -/
def glibLevelMask : Nat := 0xFFFFFFFC

/-! ## Python logging levels (module `logging`) -/

/-- `logging.CRITICAL` -/
def pyCRITICAL : Int := 50
/-- `logging.ERROR` -/
def pyERROR : Int := 40
/-- `logging.WARNING` -/
def pyWARNING : Int := 30
/-- `logging.INFO` -/
def pyINFO : Int := 20
/-- `logging.DEBUG` -/
def pyDEBUG : Int := 10

/-! ## Python `dict` model

A Python `dict` is modelled as an association list that keeps insertion
order.  `dictInsert` is `d[k] = v`: it replaces the value at the first
occurrence of the key (keeping its position) or appends a new entry;
`dictUpdate` is `d.update(d2)`.  Lookup is `List.lookup`. -/

/-- `d[k] = v` on a Python dict: overwrite in place or append. -/
def dictInsert {α : Type} : List (String × α) → String → α → List (String × α)
  | [], k, v => [(k, v)]
  | (k', v') :: rest, k, v =>
    if k' = k then (k', v) :: rest else (k', v') :: dictInsert rest k v

/-- `d.update(d2)` on Python dicts: insert every entry of `d2` in order. -/
def dictUpdate {α : Type} (d d2 : List (String × α)) : List (String × α) :=
  d2.foldl (fun acc kv => dictInsert acc kv.1 kv.2) d

theorem dictInsert_lookup_self {α : Type} (m : List (String × α)) (k : String) (v : α) :
    (dictInsert m k v).lookup k = some v := by
  induction m with
  | nil => simp [dictInsert, List.lookup]
  | cons kv rest ih =>
    obtain ⟨k', v'⟩ := kv
    by_cases h : k' = k
    · subst h
      simp [dictInsert, List.lookup]
    · simp only [dictInsert, if_neg h, List.lookup]
      have : (k == k') = false := by
        simp [beq_iff_eq]
        exact fun hc => h hc.symm
      simp [this, ih]

theorem dictInsert_lookup_other {α : Type} (m : List (String × α)) (k k' : String) (v : α)
    (h : k ≠ k') : (dictInsert m k' v).lookup k = m.lookup k := by
  induction m with
  | nil =>
    have : (k == k') = false := by
      simp [beq_iff_eq]
      exact h
    simp [dictInsert, List.lookup, this]
  | cons kv rest ih =>
    obtain ⟨k0, v0⟩ := kv
    by_cases h0 : k0 = k'
    · subst h0
      have : (k == k0) = false := by
        simp [beq_iff_eq]
        exact fun hc => h (hc ▸ rfl)
      simp [dictInsert, List.lookup, this]
    · simp only [dictInsert, if_neg h0, List.lookup]
      by_cases hk : k = k0
      · subst hk
        simp
      · have : (k == k0) = false := by simp [beq_iff_eq, hk]
        simp [this, ih]

theorem dictInsert_lookup_isSome {α : Type} (m : List (String × α)) (k k' : String) (v : α)
    (h : (m.lookup k).isSome) : ((dictInsert m k' v).lookup k).isSome := by
  by_cases hk : k = k'
  · subst hk
    simp [dictInsert_lookup_self]
  · rwa [dictInsert_lookup_other m k k' v hk]

theorem dictUpdate_lookup_isSome {α : Type} (d2 d : List (String × α)) (k : String)
    (h : (d.lookup k).isSome) : ((dictUpdate d d2).lookup k).isSome := by
  induction d2 generalizing d with
  | nil => exact h
  | cons kv rest ih =>
    show ((dictUpdate (dictInsert d kv.1 kv.2) rest).lookup k).isSome
    exact ih _ (dictInsert_lookup_isSome _ _ _ _ h)

theorem dictUpdate_lookup_not_mem {α : Type} (d2 d : List (String × α)) (k : String)
    (h : k ∉ d2.map Prod.fst) : (dictUpdate d d2).lookup k = d.lookup k := by
  induction d2 generalizing d with
  | nil => rfl
  | cons kv rest ih =>
    simp only [List.map_cons, List.mem_cons] at h
    push_neg at h
    show (dictUpdate (dictInsert d kv.1 kv.2) rest).lookup k = d.lookup k
    rw [ih _ h.2]
    exact dictInsert_lookup_other _ _ _ _ h.1

theorem dictUpdate_lookup_mem {α : Type} (d2 d : List (String × α)) (k : String) (v : α)
    (hnodup : (d2.map Prod.fst).Nodup) (hmem : (k, v) ∈ d2) :
    (dictUpdate d d2).lookup k = some v := by
  induction d2 generalizing d with
  | nil => simp at hmem
  | cons kv rest ih =>
    simp only [List.map_cons, List.nodup_cons] at hnodup
    rcases List.mem_cons.mp hmem with heq | htail
    · show (dictUpdate (dictInsert d kv.1 kv.2) rest).lookup k = some v
      rw [← heq]
      rw [dictUpdate_lookup_not_mem rest _ k (by rw [← heq] at hnodup; exact hnodup.1)]
      exact dictInsert_lookup_self _ _ _
    · show (dictUpdate (dictInsert d kv.1 kv.2) rest).lookup k = some v
      exact ih (dictInsert d kv.1 kv.2) hnodup.2 htail

/-! ## UTF-8 codec

Embedding of Python's UTF-8 codec on byte lists: `utf8EncodeChar` /
`utf8Encode` model `str.encode('utf-8')` and `utf8Decode?` models the
strict decoder behind `bytes.decode(errors="strict")` (rejecting
overlong forms, surrogates, out-of-range code points and malformed
continuation bytes; any error fails the whole decode, which is all the
source uses of it observe). -/

/-- UTF-8 encoding of one Unicode scalar value, as a list of bytes. -/
def utf8EncodeChar (c : Char) : List Nat :=
  if c.toNat < 0x80 then
    [c.toNat]
  else if c.toNat < 0x800 then
    [0xc0 + c.toNat / 64, 0x80 + c.toNat % 64]
  else if c.toNat < 0x10000 then
    [0xe0 + c.toNat / 4096, 0x80 + c.toNat / 64 % 64, 0x80 + c.toNat % 64]
  else
    [0xf0 + c.toNat / 262144, 0x80 + c.toNat / 4096 % 64, 0x80 + c.toNat / 64 % 64,
      0x80 + c.toNat % 64]

/-- `s.encode('utf-8')` as a list of bytes. -/
def utf8Encode (s : String) : List Nat :=
  s.data.flatMap utf8EncodeChar

/-- Classify a UTF-8 lead byte: `some (initial value, continuation byte count)`,
or `none` for a byte that cannot start a sequence (stray continuation
byte or a byte above `0xf7`). -/
def utf8Head (b0 : Nat) : Option (Nat × Nat) :=
  if b0 < 0x80 then some (b0, 0)
  else if b0 < 0xc0 then none
  else if b0 < 0xe0 then some (b0 - 0xc0, 1)
  else if b0 < 0xf0 then some (b0 - 0xe0, 2)
  else if b0 < 0xf8 then some (b0 - 0xf0, 3)
  else none

/-- Smallest code point representable with the given number of
continuation bytes (used for the overlong-encoding check). -/
def utf8MinVal : Nat → Nat
  | 0 => 0
  | 1 => 0x80
  | 2 => 0x800
  | _ => 0x10000

/-- Consume `n` continuation bytes, accumulating the code point value. -/
def utf8TakeCont : Nat → Nat → List Nat → Option (Nat × List Nat)
  | 0, v, bs => some (v, bs)
  | n + 1, v, bs =>
    match bs with
    | [] => none
    | b :: rest =>
      if 0x80 ≤ b ∧ b < 0xc0 then utf8TakeCont n (v * 64 + (b - 0x80)) rest
      else none

/-- Decode one scalar from lead byte `b0` followed by `bs`:
`some (code point, remaining bytes)`, or `none` for malformed input
(bad lead or continuation byte, overlong form, surrogate, or a value
above U+10FFFF — exactly what Python's strict UTF-8 decoder rejects). -/
def utf8DecodeOne? (b0 : Nat) (bs : List Nat) : Option (Nat × List Nat) :=
  (utf8Head b0).bind (fun vn =>
    (utf8TakeCont vn.2 vn.1 bs).bind (fun vrest =>
      if utf8MinVal vn.2 ≤ vrest.1 ∧ ¬ (0xd800 ≤ vrest.1 ∧ vrest.1 ≤ 0xdfff) ∧
          vrest.1 < 0x110000 then
        some vrest
      else none))

/-- Fuelled decoding loop; fuel bounds the number of decoded scalars, and
one byte list entry is consumed per scalar at minimum, so `bs.length`
fuel always suffices. -/
def utf8DecodeGo : Nat → List Nat → Option (List Char)
  | _, [] => some []
  | 0, _ :: _ => none
  | fuel + 1, b0 :: bs =>
    match utf8DecodeOne? b0 bs with
    | none => none
    | some (v, rest) => (utf8DecodeGo fuel rest).map (fun cs => Char.ofNat v :: cs)

/-- Strict UTF-8 decoding of a byte list into characters
(`bytes.decode(errors="strict")`); `none` on any malformed input. -/
def utf8Decode? (bs : List Nat) : Option (List Char) :=
  utf8DecodeGo bs.length bs

/-- `bytes.decode(errors="strict")`: strict UTF-8 decode into a string. -/
def bytesDecodeStrict? (b : List Nat) : Option String :=
  (utf8Decode? b).map String.mk

/-! ### UTF-8 round trip -/

theorem char_valid_nat (c : Char) :
    c.toNat < 0xd800 ∨ (0xdfff < c.toNat ∧ c.toNat < 0x110000) := by
  rcases c.valid with h | ⟨h1, h2⟩
  · exact Or.inl (UInt32.toNat_lt_of_lt (by decide) h)
  · exact Or.inr ⟨UInt32.lt_toNat_of_lt (by decide) h1, UInt32.toNat_lt_of_lt (by decide) h2⟩

theorem utf8EncodeChar_length_pos (c : Char) : 1 ≤ (utf8EncodeChar c).length := by
  unfold utf8EncodeChar
  split_ifs <;> simp [List.length]

theorem utf8TakeCont_length {n v : Nat} {bs : List Nat} {v' : Nat} {rest : List Nat}
    (h : utf8TakeCont n v bs = some (v', rest)) : rest.length ≤ bs.length := by
  induction n generalizing v bs with
  | zero =>
    simp only [utf8TakeCont] at h
    cases h
    exact Nat.le_refl _
  | succ n ih =>
    simp only [utf8TakeCont] at h
    cases bs with
    | nil => exact absurd h (by simp)
    | cons b rest' =>
      simp only at h
      split at h
      · exact Nat.le_trans (ih h) (by simp)
      · exact absurd h (by simp)

theorem utf8DecodeOne?_length {b0 : Nat} {bs : List Nat} {v : Nat} {rest : List Nat}
    (h : utf8DecodeOne? b0 bs = some (v, rest)) : rest.length ≤ bs.length := by
  unfold utf8DecodeOne? at h
  cases hh : utf8Head b0 with
  | none =>
    rw [hh] at h
    simp at h
  | some vn =>
    rw [hh] at h
    simp only [Option.some_bind] at h
    cases ht : utf8TakeCont vn.2 vn.1 bs with
    | none =>
      rw [ht] at h
      simp at h
    | some vrest =>
      rw [ht] at h
      simp only [Option.some_bind] at h
      split at h
      · cases h
        exact utf8TakeCont_length ht
      · exact absurd h (by simp)

theorem utf8DecodeGo_fuel {fuel1 fuel2 : Nat} {bs : List Nat}
    (h1 : bs.length ≤ fuel1) (h2 : bs.length ≤ fuel2) :
    utf8DecodeGo fuel1 bs = utf8DecodeGo fuel2 bs := by
  induction fuel1 generalizing fuel2 bs with
  | zero =>
    have : bs = [] := List.length_eq_zero.mp (Nat.le_zero.mp h1)
    subst this
    cases fuel2 <;> rfl
  | succ fuel1 ih =>
    cases bs with
    | nil => cases fuel2 <;> rfl
    | cons b0 bs' =>
      cases fuel2 with
      | zero => exact absurd h2 (by simp)
      | succ fuel2 =>
        simp only [utf8DecodeGo]
        cases hdec : utf8DecodeOne? b0 bs' with
        | none => rfl
        | some vrest =>
          obtain ⟨v, rest⟩ := vrest
          have hlen : rest.length ≤ bs'.length := utf8DecodeOne?_length hdec
          simp only [List.length_cons, Nat.succ_le_succ_iff] at h1 h2
          show (utf8DecodeGo fuel1 rest).map (fun cs => Char.ofNat v :: cs) =
            (utf8DecodeGo fuel2 rest).map (fun cs => Char.ofNat v :: cs)
          rw [ih (Nat.le_trans hlen h1) (Nat.le_trans hlen h2)]

theorem utf8DecodeGo_encodeChar (fuel : Nat) (c : Char) (bs : List Nat) :
    utf8DecodeGo (fuel + 1) (utf8EncodeChar c ++ bs) =
      (utf8DecodeGo fuel bs).map (fun cs => c :: cs) := by
  have hval := char_valid_nat c
  unfold utf8EncodeChar
  by_cases h1 : c.toNat < 0x80
  · rw [if_pos h1]
    have hdec : utf8DecodeOne? c.toNat bs = some (c.toNat, bs) := by
      have hhead : utf8Head c.toNat = some (c.toNat, 0) := by
        unfold utf8Head
        rw [if_pos h1]
      unfold utf8DecodeOne?
      rw [hhead]
      simp only [Option.some_bind, utf8TakeCont, utf8MinVal]
      rw [if_pos (by refine ⟨Nat.zero_le _, by omega, by omega⟩)]
    show utf8DecodeGo (fuel + 1) (c.toNat :: bs) = (utf8DecodeGo fuel bs).map (fun cs => c :: cs)
    simp only [utf8DecodeGo]
    rw [hdec]
    show (utf8DecodeGo fuel bs).map (fun cs => Char.ofNat c.toNat :: cs) =
      (utf8DecodeGo fuel bs).map (fun cs => c :: cs)
    simp only [Char.ofNat_toNat]
  · rw [if_neg h1]
    by_cases h2 : c.toNat < 0x800
    · rw [if_pos h2]
      have hdec : utf8DecodeOne? (0xc0 + c.toNat / 64) ((0x80 + c.toNat % 64) :: bs) =
          some (c.toNat, bs) := by
        have hhead : utf8Head (0xc0 + c.toNat / 64) = some (0xc0 + c.toNat / 64 - 0xc0, 1) := by
          unfold utf8Head
          rw [if_neg (by omega), if_neg (by omega), if_pos (by omega)]
        unfold utf8DecodeOne?
        rw [hhead]
        simp only [Option.some_bind, utf8TakeCont, utf8MinVal]
        rw [if_pos (by constructor <;> omega)]
        simp only [Option.some_bind]
        rw [if_pos (by refine ⟨by omega, by omega, by omega⟩)]
        simp only [Option.some.injEq, Prod.mk.injEq]
        exact ⟨by omega, trivial⟩
      show utf8DecodeGo (fuel + 1) ((0xc0 + c.toNat / 64) :: (0x80 + c.toNat % 64) :: bs) =
        (utf8DecodeGo fuel bs).map (fun cs => c :: cs)
      simp only [utf8DecodeGo]
      rw [hdec]
      show (utf8DecodeGo fuel bs).map (fun cs => Char.ofNat c.toNat :: cs) =
        (utf8DecodeGo fuel bs).map (fun cs => c :: cs)
      simp only [Char.ofNat_toNat]
    · rw [if_neg h2]
      by_cases h3 : c.toNat < 0x10000
      · rw [if_pos h3]
        have hdec : utf8DecodeOne? (0xe0 + c.toNat / 4096)
            ((0x80 + c.toNat / 64 % 64) :: (0x80 + c.toNat % 64) :: bs) =
            some (c.toNat, bs) := by
          have hhead : utf8Head (0xe0 + c.toNat / 4096) =
              some (0xe0 + c.toNat / 4096 - 0xe0, 2) := by
            unfold utf8Head
            rw [if_neg (by omega), if_neg (by omega), if_neg (by omega), if_pos (by omega)]
          unfold utf8DecodeOne?
          rw [hhead]
          simp only [Option.some_bind, utf8TakeCont, utf8MinVal]
          rw [if_pos (by constructor <;> omega), if_pos (by constructor <;> omega)]
          simp only [Option.some_bind]
          rw [if_pos (by refine ⟨by omega, by omega, by omega⟩)]
          simp only [Option.some.injEq, Prod.mk.injEq]
          exact ⟨by omega, trivial⟩
        show utf8DecodeGo (fuel + 1) ((0xe0 + c.toNat / 4096) ::
          (0x80 + c.toNat / 64 % 64) :: (0x80 + c.toNat % 64) :: bs) =
          (utf8DecodeGo fuel bs).map (fun cs => c :: cs)
        simp only [utf8DecodeGo]
        rw [hdec]
        show (utf8DecodeGo fuel bs).map (fun cs => Char.ofNat c.toNat :: cs) =
          (utf8DecodeGo fuel bs).map (fun cs => c :: cs)
        simp only [Char.ofNat_toNat]
      · rw [if_neg h3]
        have hdec : utf8DecodeOne? (0xf0 + c.toNat / 262144)
            ((0x80 + c.toNat / 4096 % 64) :: (0x80 + c.toNat / 64 % 64) ::
              (0x80 + c.toNat % 64) :: bs) = some (c.toNat, bs) := by
          have hhead : utf8Head (0xf0 + c.toNat / 262144) =
              some (0xf0 + c.toNat / 262144 - 0xf0, 3) := by
            unfold utf8Head
            rw [if_neg (by omega), if_neg (by omega), if_neg (by omega), if_neg (by omega),
                if_pos (by omega)]
          unfold utf8DecodeOne?
          rw [hhead]
          simp only [Option.some_bind, utf8TakeCont, utf8MinVal]
          rw [if_pos (by constructor <;> omega), if_pos (by constructor <;> omega),
              if_pos (by constructor <;> omega)]
          simp only [Option.some_bind]
          rw [if_pos (by refine ⟨by omega, by omega, by omega⟩)]
          simp only [Option.some.injEq, Prod.mk.injEq]
          exact ⟨by omega, trivial⟩
        show utf8DecodeGo (fuel + 1) ((0xf0 + c.toNat / 262144) ::
          (0x80 + c.toNat / 4096 % 64) :: (0x80 + c.toNat / 64 % 64) ::
          (0x80 + c.toNat % 64) :: bs) = (utf8DecodeGo fuel bs).map (fun cs => c :: cs)
        simp only [utf8DecodeGo]
        rw [hdec]
        show (utf8DecodeGo fuel bs).map (fun cs => Char.ofNat c.toNat :: cs) =
          (utf8DecodeGo fuel bs).map (fun cs => c :: cs)
        simp only [Char.ofNat_toNat]

theorem utf8Decode?_flatMap (cs : List Char) :
    utf8Decode? (cs.flatMap utf8EncodeChar) = some cs := by
  induction cs with
  | nil => rfl
  | cons c rest ih =>
    have hpos := utf8EncodeChar_length_pos c
    unfold utf8Decode?
    simp only [List.flatMap_cons]
    have hlen : (utf8EncodeChar c ++ rest.flatMap utf8EncodeChar).length =
        ((utf8EncodeChar c ++ rest.flatMap utf8EncodeChar).length - 1) + 1 := by
      simp only [List.length_append]
      omega
    rw [hlen, utf8DecodeGo_encodeChar]
    have hle : (rest.flatMap utf8EncodeChar).length ≤
        (utf8EncodeChar c ++ rest.flatMap utf8EncodeChar).length - 1 := by
      simp only [List.length_append]
      omega
    rw [utf8DecodeGo_fuel hle (Nat.le_refl _)]
    rw [show utf8DecodeGo (rest.flatMap utf8EncodeChar).length (rest.flatMap utf8EncodeChar) =
        utf8Decode? (rest.flatMap utf8EncodeChar) from rfl, ih]
    rfl

/-- Round trip of the embedded Python UTF-8 codec: strict decoding of
`s.encode('utf-8')` gives back `s`. -/
theorem bytesDecodeStrict?_utf8Encode (s : String) :
    bytesDecodeStrict? (utf8Encode s) = some s := by
  obtain ⟨d⟩ := s
  unfold bytesDecodeStrict? utf8Encode
  rw [utf8Decode?_flatMap]
  rfl

/-- A list with no zero entries, followed by a zero terminator, is cut
exactly at the terminator. -/
theorem takeWhile_append_zero (l r : List Nat) (h : ∀ b ∈ l, b ≠ 0) :
    (l ++ 0 :: r).takeWhile (fun b => b != 0) = l := by
  induction l with
  | nil => simp [List.takeWhile_cons]
  | cons x xs ih =>
    have hx : (x != 0) = true := by
      simp only [bne_iff_ne, ne_eq]
      exact h x (List.mem_cons_self _ _)
    simp [List.takeWhile_cons, hx, ih (fun b hb => h b (List.mem_cons_of_mem _ hb))]

/-! ## Auxiliary Python semantics -/

/-- A Python exception value (only the distinctions the source observes). -/
inductive PyErr where
  | valueError
deriving DecidableEq, Repr

/-- Lossy UTF-8 decoding loop modelling `bytes.decode(errors='replace')`:
well-formed scalars are decoded, any malformed position emits U+FFFD and
resumes one byte further.  (Python's replace handler can skip a malformed
multi-byte prefix in one step; the claims below never depend on the exact
replacement positions, only on totality of the lossy decode.) -/
def utf8DecodeReplaceGo : Nat → List Nat → List Char
  | _, [] => []
  | 0, _ :: _ => []
  | fuel + 1, b0 :: bs =>
    match utf8DecodeOne? b0 bs with
    | some (v, rest) => Char.ofNat v :: utf8DecodeReplaceGo fuel rest
    | none => '�' :: utf8DecodeReplaceGo fuel bs

/-- `bytes.decode(errors='replace')`: total lossy UTF-8 decode. -/
def bytesDecodeReplace (bs : List Nat) : String :=
  String.mk (utf8DecodeReplaceGo bs.length bs)

/-- Python `s.replace(pat, rep)` for a single-character pattern (the
only form the source uses: `'-'` → `'.'` and `'.'` → the configured
replacement text). -/
def pyReplaceChar (s : String) (pat : Char) (rep : String) : String :=
  String.mk (s.data.flatMap (fun c => if c = pat then rep.data else [c]))

/-- Python `s.strip()` (as `int()` applies it): leading and trailing
whitespace removed. -/
def pyStrip (s : String) : String :=
  String.mk (((s.data.dropWhile Char.isWhitespace).reverse.dropWhile
    Char.isWhitespace).reverse)

/-- Parse a digit sequence (no sign) as `int()` does; `none` when empty
or containing a non-digit. -/
def natOfDigits? (ds : List Char) : Option Nat :=
  if ds ≠ [] ∧ ds.all Char.isDigit then
    some (ds.foldl (fun n c => n * 10 + (c.toNat - 48)) 0)
  else none

/-- Python `int(str)` for the forms the bridge can meet: surrounding
whitespace stripped, an optional sign, then decimal digits; `none`
models the `ValueError` raised otherwise. -/
def pyIntOfStr? (s : String) : Option Int :=
  match (pyStrip s).data with
  | '+' :: ds => (natOfDigits? ds).map Int.ofNat
  | '-' :: ds => (natOfDigits? ds).map (fun n => -(n : Int))
  | ds => (natOfDigits? ds).map Int.ofNat

/-! ## Ingress: `glib2python.py`, class `Logger` -/

/-- A decoded field value: UTF-8 text (`str`) or raw bytes (`bytes`),
the two value shapes `Logger._fields_to_dict` produces. -/
inductive GValue where
  | str (s : String)
  | bytes (b : List Nat)
deriving DecidableEq, Repr

/-- Python `int(x)` on a decoded field value: text is parsed; bytes are
treated as ASCII digits (non-ASCII bytes raise `ValueError`). -/
def pyIntOfGValue? : GValue → Option Int
  | .str s => pyIntOfStr? s
  | .bytes b =>
    if b.all (fun x => x < 0x80) then pyIntOfStr? (String.mk (b.map Char.ofNat))
    else none

/-- The decoded field map built by `Logger._fields_to_dict`. -/
abbrev GlibFieldMap := List (String × GValue)

/-- `GLib.LogField`: key, declared length, and value pointer (`none` is
the NULL pointer; `some mem` points at memory contents `mem`). -/
structure LogField where
  key : String
  length : Int
  value : Option (List Nat)
deriving DecidableEq, Repr

/-- `ctypes.c_char_p(addr).value`: `None` for a NULL pointer, otherwise
the bytes up to (excluding) the first NUL byte. -/
def cCharPValue : Option (List Nat) → Option (List Nat)
  | none => none
  | some mem => some (mem.takeWhile (fun b => b != 0))

/-- One iteration of the loop body of `Logger._fields_to_dict`
(glib2python.py lines 93–110), computing the value stored for one
`GLib.LogField`.  A negative length other than `-1` reaches
`ctypes.c_byte * field.length`, which raises `ValueError`. -/
def decodeFieldValue (f : LogField) : Except PyErr GValue :=
  if f.value = none ∨ f.length = 0 then
    .ok (.bytes [])
  else if f.length = -1 then
    match cCharPValue f.value with
    | none => .ok (.str "")
    | some raw =>
      match bytesDecodeStrict? raw with
      | some s => .ok (.str s)
      | none => .ok (.bytes raw)
  else if f.length < 0 then
    .error .valueError
  else
    .ok (.bytes ((f.value.getD []).take f.length.toNat))

namespace Logger

/-- `Logger._fields_to_dict`: decode a `GLib.LogField` list into a dict,
storing each decoded value under its key in iteration order. -/
def _fields_to_dict (logfields : List LogField) : Except PyErr GlibFieldMap :=
  logfields.foldlM
    (fun acc f => (decodeFieldValue f).map (fun v => dictInsert acc f.key v)) []

/-- Configuration state of a `glib2python.Logger` instance; `loggerPre`,
`loggerSuf` and `usePriorityField` embed the attributes `logger_prefix`,
`logger_suffix` and `use_priority_field`. -/
structure Config where
  loggerPre : String
  loggerSuf : String
  usePriorityField : Bool

/-- `Logger._get_logger_name`: the `GLIB_DOMAIN` field (bytes decoded
lossily), hyphens replaced with dots, wrapped with the configured
prefix and suffix strings. -/
def _get_logger_name (cfg : Config) (fields : GlibFieldMap) : String :=
  let domain := match fields.lookup "GLIB_DOMAIN" with
    | none => ""
    | some (.str s) => s
    | some (.bytes b) => bytesDecodeReplace b
  cfg.loggerPre ++ pyReplaceChar domain '-' "." ++ cfg.loggerSuf

/-- `Logger._get_message`: the `MESSAGE` field; bytes are decoded
lossily, a missing field yields the empty string. -/
def _get_message (fields : GlibFieldMap) : String :=
  match fields.lookup "MESSAGE" with
  | none => ""
  | some (.str s) => s
  | some (.bytes b) => bytesDecodeReplace b

/-- `Logger._log_level_priority_map`: journald `PRIORITY=` digit to
Python logging level. -/
def _log_level_priority_map : List (String × Int) :=
  [("0", pyCRITICAL), ("1", pyWARNING), ("2", pyCRITICAL), ("3", pyERROR),
   ("4", pyCRITICAL), ("5", pyINFO), ("6", pyINFO), ("7", pyDEBUG)]

/-- `Logger._glib_level_map` in the iteration order of the source's
`sorted(self._glib_level_map, reverse=False)` (ascending flag value). -/
def _glib_level_map_sorted : List (Nat × Int) :=
  [(glibLevelError, pyERROR), (glibLevelCritical, pyCRITICAL),
   (glibLevelWarning, pyWARNING), (glibLevelMessage, pyINFO),
   (glibLevelInfo, pyINFO), (glibLevelDebug, pyDEBUG)]

/-- The `for key in sorted(...): if key & log_level: return ...` scan of
`Logger._get_log_level`. -/
def bitScan : List (Nat × Int) → Nat → Int → Int
  | [], _, d => d
  | (k, v) :: rest, masked, d => if k &&& masked ≠ 0 then v else bitScan rest masked d

/-- `Logger._get_log_level`: the journald `PRIORITY` field (if enabled,
present, textual and recognized) wins; otherwise the GLib level is
masked down to its level bits and scanned against the level map; the
default is returned when no bit matches. -/
def _get_log_level (cfg : Config) (fields : GlibFieldMap) (logLevel : Nat)
    (dflt : Int) : Int :=
  let viaPriority : Option Int :=
    match fields.lookup "PRIORITY", cfg.usePriorityField with
    | some (.str p), true => _log_level_priority_map.lookup p
    | _, _ => none
  match viaPriority with
  | some lvl => lvl
  | none => bitScan _glib_level_map_sorted (logLevel &&& glibLevelMask) dflt

/-- `Logger._get_code_location`: optional `CODE_PATH` / `CODE_FUNC`
(bytes decoded lossily) and `CODE_LINE` parsed by `int()` (default
`-1`); a non-numeric `CODE_LINE` raises `ValueError`. -/
def _get_code_location (fields : GlibFieldMap) :
    Except PyErr (Option String × Int × Option String) :=
  let pathName : Option String := match fields.lookup "CODE_PATH" with
    | none => none
    | some (.str s) => some s
    | some (.bytes b) => some (bytesDecodeReplace b)
  let funcName : Option String := match fields.lookup "CODE_FUNC" with
    | none => none
    | some (.str s) => some s
    | some (.bytes b) => some (bytesDecodeReplace b)
  match fields.lookup "CODE_LINE" with
  | none => .ok (pathName, -1, funcName)
  | some v =>
    match pyIntOfGValue? v with
    | some n => .ok (pathName, n, funcName)
    | none => .error .valueError

/-- The `logging.LogRecord` constructed by `Logger._get_record`
(the attributes the factory call sets, plus the `glib_fields`
attribute holding the original field map). -/
structure IngressRecord where
  name : String
  levelno : Int
  pathname : Option String
  lineno : Int
  msg : String
  funcName : Option String
  glib_fields : GlibFieldMap
deriving DecidableEq, Repr

/-- `Logger._get_record`: build the Python log record from the decoded
fields (message, level, logger name, call-site; original fields attached
as `glib_fields`). -/
def _get_record (cfg : Config) (logLevel : Nat) (fields : GlibFieldMap) :
    Except PyErr IngressRecord :=
  let message := _get_message fields
  let level := _get_log_level cfg fields logLevel pyINFO
  let loggerName := _get_logger_name cfg fields
  match _get_code_location fields with
  | .error e => .error e
  | .ok (p, l, fn) =>
    .ok { name := loggerName, levelno := level, pathname := p, lineno := l,
          msg := message, funcName := fn, glib_fields := fields }

/-- `GLib.LogWriterOutput` -/
inductive LogWriterOutput where
  | handled
  | unhandled
deriving DecidableEq, Repr

/-- The `isinstance(logfields, dict)` test at the top of
`Logger.logWriterFunc`: an already-decoded dict is used verbatim, a raw
field list goes through `Logger._fields_to_dict`. -/
def normalizeFields : Sum (List LogField) GlibFieldMap → Except PyErr GlibFieldMap
  | .inl lf => _fields_to_dict lf
  | .inr m => .ok m

/-- The body of the `try:` block of `Logger.logWriterFunc`: normalize the
fields, build the record, and produce the dispatch
`self._get_logger(fields).handle(record)` (modelled as the pair of the
target logger name and the record handed to it). -/
def logWriterTry (cfg : Config) (logLevel : Nat)
    (logfields : Sum (List LogField) GlibFieldMap) :
    Except PyErr (String × IngressRecord) :=
  match normalizeFields logfields with
  | .error e => .error e
  | .ok fields =>
    match _get_record cfg logLevel fields with
    | .error e => .error e
    | .ok record => .ok (_get_logger_name cfg fields, record)

/-- `Logger.logWriterFunc`: run the translation under `try:`; on success
return `HANDLED` with the single dispatch performed, on any exception
return `UNHANDLED` with no dispatch.  `logfieldsN` is the (unused)
field-count argument and `ud` the (unused) user data. -/
def logWriterFunc (cfg : Config) (logLevel : Nat)
    (logfields : Sum (List LogField) GlibFieldMap) (logfieldsN : Int) (ud : Unit) :
    LogWriterOutput × Option (String × IngressRecord) :=
  match logWriterTry cfg logLevel logfields with
  | .ok d => (.handled, some d)
  | .error _ => (.unhandled, none)

/-- `Logger.logHandlerFunc`: build the two-entry field dict from the
legacy handler arguments and delegate to `Logger.logWriterFunc`. -/
def logHandlerFunc (cfg : Config) (logDomain : String) (logLevel : Nat)
    (message : String) (ud : Unit) : LogWriterOutput × Option (String × IngressRecord) :=
  let fields : GlibFieldMap := [("MESSAGE", .str message), ("GLIB_DOMAIN", .str logDomain)]
  logWriterFunc cfg logLevel (.inr fields) fields.length ud

end Logger

/-! ## Egress: `python2glib.py`, classes `LoggerHandler` / `GLibWriterHandler` -/

/-- A `GLib.Variant` as far as the egress converter distinguishes them:
a string variant (`'s'`) or a byte-array variant (`'ay'`). -/
inductive GVariant where
  | vs (s : String)
  | vay (b : List Nat)
deriving DecidableEq, Repr

/-- Modelled behavior of the external constructor `GLib.Variant('s', s)`:
the native string is NUL-terminated, so a Python string with an interior
NUL byte is cut off at the first NUL — exactly the cut-off the source
warns about ("Found 0-byte in string, will be cut off"). -/
def mkVariantStr (s : String) : GVariant :=
  .vs (String.mk (s.data.takeWhile (fun c => c != '\x00')))

/-- Two-digit lower-case hex of one byte, as in GLib's variant text
format for byte arrays. -/
def byteHexChars (n : Nat) : List Char :=
  ['0', 'x', Nat.digitChar (n / 16 % 16), Nat.digitChar (n % 16)]

/-- Model of `str(GLib.Variant(...))` (external `g_variant_print` text
format; no claim depends on its details, it only keeps the embedding of
`str(value)` total on variant values). -/
def gvariantStr : GVariant → String
  | .vs s => "'" ++ s ++ "'"
  | .vay b => "[" ++ String.intercalate ", " (b.map (fun n => String.mk (byteHexChars n))) ++ "]"

/-- A Python value held in an egress field map, as the converters
classify them: text, `int`, `bytes`, an already-constructed
`GLib.Variant`, `None`, or any other object — embedded by the one thing
the converters use of it, its `str()` text. -/
inductive PyVal where
  | str (s : String)
  | int (n : Int)
  | bytes (b : List Nat)
  | variant (v : GVariant)
  | pynone
  | obj (s : String)
deriving DecidableEq, Repr

/-- The egress field dictionary built by `LoggerHandler._get_fields`. -/
abbrev PyFieldMap := List (String × PyVal)

/-- `record.exc_info` as `LoggerHandler._get_fields_exception` consumes
it: the effective exception type (after the `type(exc)` fallback) split
into `__module__` and `__qualname__`, and `str(exc)`. -/
structure ExcInfo where
  typeModule : String
  typeQualname : String
  message : String
deriving DecidableEq, Repr

/-- The attributes of a `logging.LogRecord` the egress translator reads.
`msg` is the result of `record.getMessage()` (arguments already
applied); `glib_fields` is `some d` exactly when the record has a
`glib_fields` attribute that is a dict. -/
structure LogRecord where
  name : String
  levelno : Int
  msg : String
  module : String
  threadName : Option String
  thread : Option Int
  funcName : String
  pathname : String
  lineno : Int
  excInfo : Option ExcInfo
  glib_fields : Option PyFieldMap

/-- A diagnostic logged by the egress translator on the module logger
(`logger.warn` / `logger.error` in python2glib.py). -/
inductive Diag where
  | nullByteWarn (s : String)
  | missingMessage
deriving DecidableEq, Repr

namespace LoggerHandler

/-- Configuration state of a `python2glib.LoggerHandler`:
`replaceModuleChar`, `domainPre`, `domainSuf` embed the attributes
`replace_module_char`, `log_domain_prefix`, `log_domain_suffix`, and
`format` embeds the inherited `logging.Handler.format` (external
formatter, opaque here). -/
structure Config where
  replaceModuleChar : String
  domainPre : String
  domainSuf : String
  format : LogRecord → String

/-- `LoggerHandler._level_to_glib_map` in the iteration order of the
source's `sorted(self._level_to_glib_map, reverse=True)` (descending
Python level). -/
def _level_to_glib_map_sorted : List (Int × Nat) :=
  [(pyCRITICAL, glibLevelWarning), (pyERROR, glibLevelWarning),
   (pyWARNING, glibLevelWarning), (pyINFO, glibLevelInfo), (pyDEBUG, glibLevelDebug)]

/-- The `for key in sorted(..., reverse=True): if level >= key: return ...`
scan of `LoggerHandler._level_to_glib`. -/
def levelScan : List (Int × Nat) → Int → Nat → Nat
  | [], _, d => d
  | (k, v) :: rest, level, d => if level ≥ k then v else levelScan rest level d

/-- `LoggerHandler._level_to_glib`: first map entry whose threshold the
level meets or exceeds; `dflt` embeds the `default` parameter (the
source's default argument is `GLib.LogLevelFlags.LEVEL_DEBUG`, which is
what every caller in the source uses). -/
def _level_to_glib (level : Int) (dflt : Nat) : Nat :=
  levelScan _level_to_glib_map_sorted level dflt

/-- `LoggerHandler._get_log_domain`: logger name with dots replaced by
the configured character, wrapped with the domain prefix and suffix. -/
def _get_log_domain (cfg : Config) (record : LogRecord) : String :=
  cfg.domainPre ++ pyReplaceChar record.name '.' cfg.replaceModuleChar ++ cfg.domainSuf

/-- `LoggerHandler._get_fields_basic`: insert `MESSAGE` (formatted
record) and the call-site keys. -/
def _get_fields_basic (cfg : Config) (record : LogRecord) (fields : PyFieldMap) :
    PyFieldMap :=
  let f1 := dictInsert fields "MESSAGE" (.str (cfg.format record))
  let f2 := dictInsert f1 "CODE_FUNC" (.str record.funcName)
  let f3 := dictInsert f2 "CODE_FILE" (.str record.pathname)
  dictInsert f3 "CODE_LINE" (.int record.lineno)

/-- `LoggerHandler._get_fields_metadata`: insert the `PYTHON_*`
metadata keys. -/
def _get_fields_metadata (record : LogRecord) (fields : PyFieldMap) : PyFieldMap :=
  let f1 := dictInsert fields "PYTHON_MESSAGE" (.str record.msg)
  let f2 := dictInsert f1 "PYTHON_MODULE" (.str record.module)
  let f3 := dictInsert f2 "PYTHON_LOGGER" (.str record.name)
  let f4 := dictInsert f3 "PYTHON_TNAME"
    (match record.threadName with | some s => .str s | none => .pynone)
  dictInsert f4 "PYTHON_TID"
    (match record.thread with | some n => .int n | none => .pynone)

/-- `LoggerHandler._get_fields_exception`: insert `PYTHON_EXC` and
`PYTHON_EXC_MESSAGE` when the record carries exception info. -/
def _get_fields_exception (record : LogRecord) (fields : PyFieldMap) : PyFieldMap :=
  match record.excInfo with
  | none => fields
  | some e =>
    let f1 := dictInsert fields "PYTHON_EXC" (.str (e.typeModule ++ "." ++ e.typeQualname))
    dictInsert f1 "PYTHON_EXC_MESSAGE" (.str e.message)

/-- `LoggerHandler._get_fields_record`: `fields.update(record.glib_fields)`
when the attribute exists and is a dict. -/
def _get_fields_record (record : LogRecord) (fields : PyFieldMap) : PyFieldMap :=
  match record.glib_fields with
  | some d => dictUpdate fields d
  | none => fields

/-- `LoggerHandler._get_fields`: basic, metadata and exception fields,
then (when `update_from_record`, the default) the record's
round-tripped `glib_fields` merged in on top. -/
def _get_fields (cfg : Config) (record : LogRecord) (updateFromRecord : Bool) :
    PyFieldMap :=
  let f1 := _get_fields_basic cfg record []
  let f2 := _get_fields_metadata record f1
  let f3 := _get_fields_exception record f2
  if updateFromRecord then _get_fields_record record f3 else f3

/-- The loop body of `LoggerHandler._convert_fields_dict` for one value:
existing variants pass through, `bytes` become `'ay'` variants, and
everything else is stringified (`str(value)`) into an `'s'` variant,
with the 0-byte warning when the text holds an interior NUL. -/
def convertFieldValue (v : PyVal) : GVariant × List Diag :=
  match v with
  | .variant gv => (gv, [])
  | .bytes b => (.vay b, [])
  | .str s =>
    (mkVariantStr s, if s.data.contains '\x00' then [.nullByteWarn s] else [])
  | .int n =>
    (mkVariantStr (toString n),
      if (toString n).data.contains '\x00' then [.nullByteWarn (toString n)] else [])
  | .pynone =>
    (mkVariantStr "None", if ("None").data.contains '\x00' then [.nullByteWarn "None"] else [])
  | .obj s =>
    (mkVariantStr s, if s.data.contains '\x00' then [.nullByteWarn s] else [])

/-- `LoggerHandler._convert_fields_dict`: convert every value of the
field dict to a `GLib.Variant` in iteration order (the source mutates
the dict in place, which keeps keys and order), collecting the warnings
emitted along the way. -/
def _convert_fields_dict (fields : PyFieldMap) : List (String × GVariant) × List Diag :=
  fields.foldl
    (fun acc kv =>
      (acc.1 ++ [(kv.1, (convertFieldValue kv.2).1)], acc.2 ++ (convertFieldValue kv.2).2))
    ([], [])

/-- The `GLib.log_variant(log_domain, log_level, fields)` call
`LoggerHandler.emit` performs, as a value. -/
structure NativeLogEvent where
  domain : String
  level : Nat
  fields : List (String × GVariant)
deriving Repr

/-- `LoggerHandler.emit`: derive domain, level and field dict, log the
missing-`MESSAGE` diagnostic if needed, convert the fields and perform
the variant log call.  Returns the native event together with every
diagnostic recorded on the module logger. -/
def emit (cfg : Config) (record : LogRecord) : NativeLogEvent × List Diag :=
  let logDomain := _get_log_domain cfg record
  let logLevel := _level_to_glib record.levelno glibLevelDebug
  let fieldsDict := _get_fields cfg record true
  let missing := if fieldsDict.lookup "MESSAGE" = none then [Diag.missingMessage] else []
  let conv := _convert_fields_dict fieldsDict
  ({ domain := logDomain, level := logLevel, fields := conv.1 }, missing ++ conv.2)

end LoggerHandler

namespace GLibWriterHandler

/-- The loop body of `GLibWriterHandler._convert_fields` for one entry:
a `str` value becomes a length `-1` field whose buffer is
`ctypes.create_string_buffer(value.encode('utf-8'))` — the UTF-8 bytes
plus a NUL terminator; any other value is brought to `bytes`
(`str(value).encode('utf-8')` unless already `bytes`) and stored with
explicit length and no terminator
(`ctypes.create_string_buffer(value, len(value))`). -/
def convertFieldEntry (kv : String × PyVal) : LogField :=
  match kv.2 with
  | .str s => { key := kv.1, length := -1, value := some (utf8Encode s ++ [0]) }
  | .bytes b => { key := kv.1, length := (b.length : Int), value := some b }
  | .int n =>
    { key := kv.1, length := ((utf8Encode (toString n)).length : Int),
      value := some (utf8Encode (toString n)) }
  | .pynone =>
    { key := kv.1, length := ((utf8Encode "None").length : Int),
      value := some (utf8Encode "None") }
  | .obj s =>
    { key := kv.1, length := ((utf8Encode s).length : Int), value := some (utf8Encode s) }
  | .variant gv =>
    { key := kv.1, length := ((utf8Encode (gvariantStr gv)).length : Int),
      value := some (utf8Encode (gvariantStr gv)) }

/-- `GLibWriterHandler._convert_fields`: one `GLib.LogField` per dict
entry, in iteration order. -/
def _convert_fields (fields : PyFieldMap) : List LogField :=
  fields.map convertFieldEntry

end GLibWriterHandler

/-! ## Claim theorems -/

/-- Severity rank of a GLib level flag, `LEVEL_DEBUG` least severe and
`LEVEL_ERROR` most severe (GLib treats numerically smaller level flags
as more severe). -/
def severityRank (f : Nat) : Nat :=
  if f = glibLevelError then 5
  else if f = glibLevelCritical then 4
  else if f = glibLevelWarning then 3
  else if f = glibLevelMessage then 2
  else if f = glibLevelInfo then 1
  else 0

/-- C1: for every Python level, `LoggerHandler._level_to_glib` with its
default fallback returns one of `LEVEL_WARNING`, `LEVEL_INFO`,
`LEVEL_DEBUG`, and never `LEVEL_ERROR` or `LEVEL_CRITICAL`. -/
theorem level_to_glib_never_error_or_critical (level : Int) :
    (LoggerHandler._level_to_glib level glibLevelDebug = glibLevelWarning ∨
     LoggerHandler._level_to_glib level glibLevelDebug = glibLevelInfo ∨
     LoggerHandler._level_to_glib level glibLevelDebug = glibLevelDebug) ∧
    LoggerHandler._level_to_glib level glibLevelDebug ≠ glibLevelError ∧
    LoggerHandler._level_to_glib level glibLevelDebug ≠ glibLevelCritical := by
  unfold LoggerHandler._level_to_glib LoggerHandler._level_to_glib_map_sorted
  simp only [LoggerHandler.levelScan]
  split_ifs <;> refine ⟨by tauto, by decide, by decide⟩

/-- C8: `LoggerHandler._level_to_glib` (default fallback) is monotone —
a smaller Python level is never mapped to a more severe GLib flag. -/
theorem level_to_glib_monotone (L1 L2 : Int) (h : L1 < L2) :
    severityRank (LoggerHandler._level_to_glib L1 glibLevelDebug) ≤
      severityRank (LoggerHandler._level_to_glib L2 glibLevelDebug) := by
  unfold LoggerHandler._level_to_glib LoggerHandler._level_to_glib_map_sorted
  simp only [LoggerHandler.levelScan, pyCRITICAL, pyERROR, pyWARNING, pyINFO, pyDEBUG]
  split_ifs <;> first
    | decide
    | (exfalso; omega)

/-- Witness for C8 at the concrete levels 15 and 25. -/
theorem level_to_glib_monotone_witness :
    (15 : Int) < 25 ∧
    severityRank (LoggerHandler._level_to_glib 15 glibLevelDebug) ≤
      severityRank (LoggerHandler._level_to_glib 25 glibLevelDebug) :=
  ⟨by norm_num, level_to_glib_monotone 15 25 (by norm_num)⟩

/-- C3 counterexample: decoding a single field whose value pointer is
NULL (here with declared length 5) **inserts** its key with an empty
bytes value — the key is *not* skipped as the claim states. -/
theorem fields_to_dict_null_pointer_counterexample :
    Logger._fields_to_dict [{ key := "K", length := 5, value := none }] =
      .ok [("K", GValue.bytes [])] ∧
    ([("K", GValue.bytes [])] : GlibFieldMap).lookup "K" = some (GValue.bytes []) :=
  ⟨rfl, rfl⟩

/-- C3 amended: a field whose value pointer is NULL is inserted with an
empty bytes value (exactly like a zero-length field), for any key and
any declared length. -/
theorem fields_to_dict_null_pointer_inserts_empty (key : String) (length : Int) :
    Logger._fields_to_dict [{ key := key, length := length, value := none }] =
      .ok [(key, GValue.bytes [])] := by
  unfold Logger._fields_to_dict decodeFieldValue
  simp [dictInsert, Except.map]

/-- C9: `Logger.logHandlerFunc` is the writer callback applied to the
pre-decoded two-entry map `{MESSAGE: message, GLIB_DOMAIN: domain}` with
count 2, and `Logger.logWriterFunc` passes any already-decoded map
through verbatim instead of running the field decoder. -/
theorem logHandlerFunc_refines_logWriterFunc (cfg : Logger.Config) (domain : String)
    (level : Nat) (message : String) (ud : Unit) :
    Logger.logHandlerFunc cfg domain level message ud =
      Logger.logWriterFunc cfg level
        (.inr [("MESSAGE", .str message), ("GLIB_DOMAIN", .str domain)]) 2 ud ∧
    ∀ m : GlibFieldMap, Logger.normalizeFields (.inr m) = .ok m :=
  ⟨rfl, fun _ => rfl⟩

/-- C2: `Logger.logWriterFunc` returns the `UNHANDLED` sentinel (and
performs no dispatch) exactly when an exception was raised inside the
translation body, and returns `HANDLED` with the single dispatch when
translation succeeds; being a total function of its inputs, it never
propagates an exception to the native caller. -/
theorem logWriterFunc_catches_exceptions (cfg : Logger.Config) (level : Nat)
    (lf : Sum (List LogField) GlibFieldMap) (n : Int) (ud : Unit) :
    (∀ e : PyErr, Logger.logWriterTry cfg level lf = .error e →
        Logger.logWriterFunc cfg level lf n ud = (.unhandled, none)) ∧
    (∀ d : String × Logger.IngressRecord, Logger.logWriterTry cfg level lf = .ok d →
        Logger.logWriterFunc cfg level lf n ud = (.handled, some d)) := by
  constructor <;> intro x hx <;> unfold Logger.logWriterFunc <;> rw [hx]

/-- Witness for C2: a field with an invalid negative length raises and
yields `UNHANDLED`; a well-formed pre-decoded map yields `HANDLED` with
its dispatch. -/
theorem logWriterFunc_catches_exceptions_witness :
    Logger.logWriterFunc ⟨"", "", false⟩ 16 (.inl [⟨"L", -2, some [1]⟩]) 1 () =
      (.unhandled, none) ∧
    Logger.logWriterFunc ⟨"", "", false⟩ 16 (.inr [("MESSAGE", .str "hi")]) 1 () =
      (.handled, some ("", ⟨"", 30, none, -1, "hi", none, [("MESSAGE", .str "hi")]⟩)) :=
  ⟨(logWriterFunc_catches_exceptions ⟨"", "", false⟩ 16 _ 1 ()).1 .valueError rfl,
   (logWriterFunc_catches_exceptions ⟨"", "", false⟩ 16 _ 1 ()).2 _ rfl⟩

/-! ### Helper lemmas for the round-trip and decode claims -/

theorem dictInsert_not_mem {α : Type} (m : List (String × α)) (k : String) (v : α)
    (h : k ∉ m.map Prod.fst) : dictInsert m k v = m ++ [(k, v)] := by
  induction m with
  | nil => rfl
  | cons kv rest ih =>
    obtain ⟨k0, v0⟩ := kv
    simp only [List.map_cons, List.mem_cons] at h
    push_neg at h
    simp only [dictInsert]
    rw [if_neg (fun hc => h.1 hc.symm), ih h.2]
    simp

theorem foldl_dictInsert_nodup {α : Type} (l : List (String × α)) (acc : List (String × α))
    (hnodup : (l.map Prod.fst).Nodup) (hdisj : ∀ k ∈ l.map Prod.fst, k ∉ acc.map Prod.fst) :
    l.foldl (fun acc kv => dictInsert acc kv.1 kv.2) acc = acc ++ l := by
  induction l generalizing acc with
  | nil => simp
  | cons kv rest ih =>
    simp only [List.map_cons, List.nodup_cons] at hnodup
    simp only [List.foldl_cons]
    rw [dictInsert_not_mem acc kv.1 kv.2 (hdisj kv.1 (by simp))]
    rw [ih (acc ++ [(kv.1, kv.2)]) hnodup.2]
    · simp
    · intro k hk
      simp only [List.map_append, List.mem_append]
      push_neg
      refine ⟨hdisj k (by simp [hk]), ?_⟩
      simp only [List.map_cons, List.map_nil, List.mem_singleton]
      intro hc
      exact hnodup.1 (hc ▸ hk)

theorem lookup_map_of_mem {α β : Type} (l : List (String × α)) (g : α → β) (k : String)
    (v : α) (hnodup : (l.map Prod.fst).Nodup) (hmem : (k, v) ∈ l) :
    (l.map (fun kv => (kv.1, g kv.2))).lookup k = some (g v) := by
  induction l with
  | nil => simp at hmem
  | cons kv rest ih =>
    simp only [List.map_cons, List.nodup_cons] at hnodup
    rcases List.mem_cons.mp hmem with heq | htail
    · rw [← heq]
      simp [List.lookup]
    · have hk : k ≠ kv.1 := by
        intro hc
        exact hnodup.1 (hc ▸ List.mem_map_of_mem Prod.fst htail)
      simp only [List.map_cons, List.lookup]
      have : (k == kv.1) = false := by simp [beq_iff_eq, hk]
      rw [this]
      exact ih hnodup.2 htail

/-- A byte-valued field encoded with its explicit length decodes back to
exactly those bytes (the zero-length and positive-length branches of
`Logger._fields_to_dict`). -/
theorem except_map_ok {ε α β : Type} (f : α → β) (a : α) :
    (Except.ok a : Except ε α).map f = .ok (f a) := rfl

theorem except_ok_bind {ε α β : Type} (a : α) (g : α → Except ε β) :
    ((Except.ok a : Except ε α) >>= g) = g a := rfl

theorem decode_bytes_field (k : String) (b : List Nat) :
    decodeFieldValue ⟨k, (b.length : Int), some b⟩ = .ok (.bytes b) := by
  cases b with
  | nil =>
    unfold decodeFieldValue
    rw [if_pos (Or.inr (by simp))]
  | cons x rest =>
    unfold decodeFieldValue
    rw [if_neg (by simp <;> omega)]
    rw [if_neg (by simp <;> omega)]
    rw [if_neg (by simp <;> omega)]
    simp [List.take_length]

/-- The value classified by the egress encoder has no embedded NUL byte
when it is text (vacuous for every other shape). -/
def strNoNull : PyVal → Prop
  | .str s => (0 : Nat) ∉ utf8Encode s
  | _ => True

instance (v : PyVal) : Decidable (strNoNull v) := by
  cases v <;> simp only [strNoNull] <;> infer_instance

/-- The value produced by decoding the field-pointer encoding of a
Python value: text and bytes survive unchanged, anything else comes
back as the UTF-8 bytes of its `str()` text. -/
def roundTripValue : PyVal → GValue
  | .str s => .str s
  | .bytes b => .bytes b
  | .int n => .bytes (utf8Encode (toString n))
  | .pynone => .bytes (utf8Encode "None")
  | .obj s => .bytes (utf8Encode s)
  | .variant gv => .bytes (utf8Encode (gvariantStr gv))

theorem convertFieldEntry_key (kv : String × PyVal) :
    (GLibWriterHandler.convertFieldEntry kv).key = kv.1 := by
  obtain ⟨k, v⟩ := kv
  cases v <;> rfl

/-- Decoding the encoding of one entry gives its round-trip value,
provided a text value holds no embedded NUL byte. -/
theorem decode_convertFieldEntry (kv : String × PyVal) (h : strNoNull kv.2) :
    decodeFieldValue (GLibWriterHandler.convertFieldEntry kv) = .ok (roundTripValue kv.2) := by
  obtain ⟨k, v⟩ := kv
  cases v with
  | str s =>
    simp only [strNoNull] at h
    show decodeFieldValue ⟨k, -1, some (utf8Encode s ++ [0])⟩ = .ok (.str s)
    unfold decodeFieldValue
    rw [if_neg (by simp)]
    rw [if_pos rfl]
    simp only [cCharPValue]
    rw [takeWhile_append_zero _ _ (fun b hb hc => h (hc ▸ hb))]
    rw [bytesDecodeStrict?_utf8Encode s]
  | bytes b => exact decode_bytes_field k b
  | int n => exact decode_bytes_field k (utf8Encode (toString n))
  | pynone => exact decode_bytes_field k (utf8Encode "None")
  | obj s => exact decode_bytes_field k (utf8Encode s)
  | variant gv => exact decode_bytes_field k (utf8Encode (gvariantStr gv))

theorem fields_to_dict_convert_fields_go (l : List (String × PyVal)) (acc : GlibFieldMap)
    (h : ∀ kv ∈ l, strNoNull kv.2) :
    (l.map GLibWriterHandler.convertFieldEntry).foldlM
      (fun acc f => (decodeFieldValue f).map (fun v => dictInsert acc f.key v)) acc =
    .ok (l.foldl (fun acc kv => dictInsert acc kv.1 (roundTripValue kv.2)) acc) := by
  induction l generalizing acc with
  | nil => rfl
  | cons kv rest ih =>
    simp only [List.map_cons, List.foldlM_cons, List.foldl_cons]
    rw [decode_convertFieldEntry kv (h kv (by simp)), convertFieldEntry_key,
        except_map_ok, except_ok_bind]
    exact ih _ (fun x hx => h x (List.mem_cons_of_mem _ hx))

theorem foldl_dictInsert_map_nodup (fields : PyFieldMap)
    (hnodup : (fields.map Prod.fst).Nodup) :
    fields.foldl (fun acc kv => dictInsert acc kv.1 (roundTripValue kv.2)) [] =
      fields.map (fun kv => (kv.1, roundTripValue kv.2)) := by
  have hcomp : (Prod.fst ∘ fun kv : String × PyVal => (kv.1, roundTripValue kv.2)) =
      Prod.fst := funext (fun kv => rfl)
  have h1 : ((fields.map (fun kv => (kv.1, roundTripValue kv.2))).map Prod.fst).Nodup := by
    rw [List.map_map, hcomp]
    exact hnodup
  have h2 := foldl_dictInsert_nodup (fields.map (fun kv => (kv.1, roundTripValue kv.2))) []
    h1 (by simp)
  rw [List.foldl_map] at h2
  simpa using h2

/-- C4: encoding a field map with the egress field-pointer encoder and
decoding it back with the ingress decoder restores every pure-text value
and every byte value exactly, provided text values hold no embedded NUL
byte. -/
theorem convert_fields_roundtrip (fields : PyFieldMap)
    (hnn : ∀ kv ∈ fields, strNoNull kv.2)
    (hnodup : (fields.map Prod.fst).Nodup) :
    Logger._fields_to_dict (GLibWriterHandler._convert_fields fields) =
      .ok (fields.map (fun kv => (kv.1, roundTripValue kv.2))) ∧
    (∀ k s, (k, PyVal.str s) ∈ fields →
      (fields.map (fun kv => (kv.1, roundTripValue kv.2))).lookup k =
        some (GValue.str s)) ∧
    (∀ k b, (k, PyVal.bytes b) ∈ fields →
      (fields.map (fun kv => (kv.1, roundTripValue kv.2))).lookup k =
        some (GValue.bytes b)) := by
  refine ⟨?_, ?_, ?_⟩
  · unfold Logger._fields_to_dict GLibWriterHandler._convert_fields
    rw [fields_to_dict_convert_fields_go fields [] hnn]
    rw [foldl_dictInsert_map_nodup fields hnodup]
  · intro k s hmem
    exact lookup_map_of_mem fields roundTripValue k (PyVal.str s) hnodup hmem
  · intro k b hmem
    exact lookup_map_of_mem fields roundTripValue k (PyVal.bytes b) hnodup hmem

/-- Witness for C4 on a concrete map with a text field, a byte field
holding an embedded NUL, and an empty byte field. -/
theorem convert_fields_roundtrip_witness :
    Logger._fields_to_dict (GLibWriterHandler._convert_fields
      [("MESSAGE", PyVal.str "hi"), ("B", PyVal.bytes [255, 0, 7]),
       ("E", PyVal.bytes [])]) =
      .ok [("MESSAGE", GValue.str "hi"), ("B", GValue.bytes [255, 0, 7]),
        ("E", GValue.bytes [])] :=
  (convert_fields_roundtrip
    [("MESSAGE", PyVal.str "hi"), ("B", PyVal.bytes [255, 0, 7]), ("E", PyVal.bytes [])]
    (by decide) (by decide)).1

theorem decodeFieldValue_ok_of_le (f : LogField) (h : (-1 : Int) ≤ f.length) :
    ∃ v, decodeFieldValue f = .ok v := by
  unfold decodeFieldValue
  by_cases h1 : f.value = none ∨ f.length = 0
  · rw [if_pos h1]
    exact ⟨_, rfl⟩
  · rw [if_neg h1]
    by_cases h2 : f.length = -1
    · rw [if_pos h2]
      split
      · exact ⟨_, rfl⟩
      · split
        · exact ⟨_, rfl⟩
        · exact ⟨_, rfl⟩
    · rw [if_neg h2]
      have h3 : f.length ≠ 0 := fun hc => h1 (Or.inr hc)
      rw [if_neg (by omega)]
      exact ⟨_, rfl⟩

theorem fields_to_dict_go_ok (fs : List LogField) (acc : GlibFieldMap)
    (hall : ∀ f ∈ fs, (-1 : Int) ≤ f.length) :
    ∃ m, fs.foldlM
      (fun acc f => (decodeFieldValue f).map (fun v => dictInsert acc f.key v)) acc =
      .ok m := by
  induction fs generalizing acc with
  | nil => exact ⟨acc, rfl⟩
  | cons f rest ih =>
    obtain ⟨v, hv⟩ := decodeFieldValue_ok_of_le f (hall f (by simp))
    simp only [List.foldlM_cons]
    rw [hv, except_map_ok, except_ok_bind]
    exact ih _ (fun g hg => hall g (List.mem_cons_of_mem _ hg))

/-- C7: a length `-1` field with a non-null buffer is decoded by a
strict UTF-8 decode of the NUL-terminated contents — the exact text on
success, the raw bytes on failure — and a whole batch of fields with
well-formed lengths always decodes without aborting. -/
theorem fields_to_dict_strict_decode (key : String) (mem : List Nat) :
    (∀ s, bytesDecodeStrict? (mem.takeWhile (fun b => b != 0)) = some s →
      decodeFieldValue ⟨key, -1, some mem⟩ = .ok (.str s)) ∧
    (bytesDecodeStrict? (mem.takeWhile (fun b => b != 0)) = none →
      decodeFieldValue ⟨key, -1, some mem⟩ =
        .ok (.bytes (mem.takeWhile (fun b => b != 0)))) ∧
    (∀ fs : List LogField, (∀ f ∈ fs, (-1 : Int) ≤ f.length) →
      ∃ m, Logger._fields_to_dict fs = .ok m) := by
  refine ⟨?_, ?_, ?_⟩
  · intro s hs
    unfold decodeFieldValue
    rw [if_neg (by simp), if_pos rfl]
    simp only [cCharPValue]
    rw [hs]
  · intro hnone
    unfold decodeFieldValue
    rw [if_neg (by simp), if_pos rfl]
    simp only [cCharPValue]
    rw [hnone]
  · intro fs hall
    exact fields_to_dict_go_ok fs [] hall

/-- Witness for C7: valid UTF-8 up to the terminator decodes to its
text, invalid UTF-8 falls back to raw bytes, and a batch containing
both still decodes. -/
theorem fields_to_dict_strict_decode_witness :
    decodeFieldValue ⟨"T", -1, some [0x68, 0x69, 0, 0x7a]⟩ = .ok (.str "hi") ∧
    decodeFieldValue ⟨"U", -1, some [0xff, 0x41]⟩ = .ok (.bytes [0xff, 0x41]) ∧
    ∃ m, Logger._fields_to_dict
      [⟨"T", -1, some [0x68, 0x69, 0, 0x7a]⟩, ⟨"U", -1, some [0xff, 0x41]⟩] = .ok m :=
  ⟨(fields_to_dict_strict_decode "T" [0x68, 0x69, 0, 0x7a]).1 "hi" (by decide),
   (fields_to_dict_strict_decode "U" [0xff, 0x41]).2.1 (by decide),
   (fields_to_dict_strict_decode "W" []).2.2
     [⟨"T", -1, some [0x68, 0x69, 0, 0x7a]⟩, ⟨"U", -1, some [0xff, 0x41]⟩] (by decide)⟩

theorem convert_fields_dict_go (fields : PyFieldMap)
    (acc : List (String × GVariant) × List Diag) :
    fields.foldl (fun acc kv =>
      (acc.1 ++ [(kv.1, (LoggerHandler.convertFieldValue kv.2).1)],
       acc.2 ++ (LoggerHandler.convertFieldValue kv.2).2)) acc =
    (acc.1 ++ fields.map (fun kv => (kv.1, (LoggerHandler.convertFieldValue kv.2).1)),
     acc.2 ++ fields.flatMap (fun kv => (LoggerHandler.convertFieldValue kv.2).2)) := by
  induction fields generalizing acc with
  | nil => simp
  | cons kv rest ih =>
    simp only [List.foldl_cons, List.map_cons, List.flatMap_cons]
    rw [ih]
    simp [List.append_assoc]

/-- The conversion of `LoggerHandler._convert_fields_dict` is the
per-entry conversion mapped over the dict, with the concatenation of
the per-entry diagnostics. -/
theorem convert_fields_dict_eq (fields : PyFieldMap) :
    LoggerHandler._convert_fields_dict fields =
      (fields.map (fun kv => (kv.1, (LoggerHandler.convertFieldValue kv.2).1)),
       fields.flatMap (fun kv => (LoggerHandler.convertFieldValue kv.2).2)) := by
  unfold LoggerHandler._convert_fields_dict
  rw [convert_fields_dict_go]
  simp

theorem map_fst_pairmap {α β : Type} (l : List (String × α)) (g : String × α → β) :
    (l.map (fun kv => (kv.1, g kv))).map Prod.fst = l.map Prod.fst := by
  induction l with
  | nil => rfl
  | cons kv rest ih => simp [ih]

/-- C5: a non-text, non-bytes value whose stringification holds an
interior NUL byte is stored truncated at the first NUL, a warning
diagnostic is recorded, and the conversion still produces an entry for
every field of the map. -/
theorem convert_fields_dict_truncates_on_null (fields : PyFieldMap) (k s : String)
    (hmem : (k, PyVal.obj s) ∈ fields) (hnull : s.data.contains '\x00' = true) :
    (k, GVariant.vs (String.mk (s.data.takeWhile (fun c => c != '\x00')))) ∈
      (LoggerHandler._convert_fields_dict fields).1 ∧
    Diag.nullByteWarn s ∈ (LoggerHandler._convert_fields_dict fields).2 ∧
    (LoggerHandler._convert_fields_dict fields).1.map Prod.fst = fields.map Prod.fst := by
  rw [convert_fields_dict_eq]
  refine ⟨?_, ?_, ?_⟩
  · exact List.mem_map_of_mem _ hmem
  · apply List.mem_flatMap.mpr
    refine ⟨(k, PyVal.obj s), hmem, ?_⟩
    simp only [LoggerHandler.convertFieldValue]
    rw [if_pos hnull]
    simp
  · exact map_fst_pairmap fields _

/-- Witness for C5: the stringified object value `"a\x00b"` is stored as
the truncated string variant `'a'` and the warning is recorded. -/
theorem convert_fields_dict_truncates_on_null_witness :
    ("A", GVariant.vs "a") ∈ (LoggerHandler._convert_fields_dict
      [("A", PyVal.obj "a\x00b"), ("B", PyVal.int 7)]).1 ∧
    Diag.nullByteWarn "a\x00b" ∈ (LoggerHandler._convert_fields_dict
      [("A", PyVal.obj "a\x00b"), ("B", PyVal.int 7)]).2 :=
  ⟨(convert_fields_dict_truncates_on_null
      [("A", PyVal.obj "a\x00b"), ("B", PyVal.int 7)] "A" "a\x00b"
      (by decide) (by decide)).1,
   (convert_fields_dict_truncates_on_null
      [("A", PyVal.obj "a\x00b"), ("B", PyVal.int 7)] "A" "a\x00b"
      (by decide) (by decide)).2.1⟩

/-- C6: when the record carries a `glib_fields` dict, `_get_fields`
merges it in last, so every key of that dict ends up with the
round-tripped origin value, overwriting any computed value. -/
theorem get_fields_glib_fields_override (cfg : LoggerHandler.Config) (record : LogRecord)
    (d : PyFieldMap) (hgf : record.glib_fields = some d)
    (hnodup : (d.map Prod.fst).Nodup) (k : String) (v : PyVal) (hmem : (k, v) ∈ d) :
    (LoggerHandler._get_fields cfg record true).lookup k = some v := by
  simp only [LoggerHandler._get_fields, LoggerHandler._get_fields_record, hgf, if_true]
  exact dictUpdate_lookup_mem d _ k v hnodup hmem

/-- Witness for C6: a round-tripped `MESSAGE` overwrites the formatted
one in the final field map. -/
theorem get_fields_glib_fields_override_witness :
    (LoggerHandler._get_fields ⟨"-", "", "", fun _ => "FMT"⟩
      ⟨"my.logger", 20, "m", "mod", some "main", some 1, "fn", "path", 3, none,
        some [("MESSAGE", PyVal.str "orig"), ("EXTRA", PyVal.int 3)]⟩ true).lookup
      "MESSAGE" = some (PyVal.str "orig") :=
  get_fields_glib_fields_override _ _
    [("MESSAGE", PyVal.str "orig"), ("EXTRA", PyVal.int 3)] rfl (by decide)
    "MESSAGE" (PyVal.str "orig") (by decide)

theorem missingMessage_not_in_convertFieldValue (v : PyVal) :
    Diag.missingMessage ∉ (LoggerHandler.convertFieldValue v).2 := by
  cases v <;> simp only [LoggerHandler.convertFieldValue] <;>
    first
    | (split_ifs <;> simp)
    | simp

/-- C10: the default egress field map always carries `MESSAGE`
(`_get_fields_basic` sets it, later inserts and the `glib_fields` merge
can only overwrite, never remove), so the missing-`MESSAGE` diagnostic
branch of `LoggerHandler.emit` never fires. -/
theorem get_fields_always_has_message (cfg : LoggerHandler.Config) (record : LogRecord) :
    (LoggerHandler._get_fields cfg record true).lookup "MESSAGE" ≠ none ∧
    Diag.missingMessage ∉ (LoggerHandler.emit cfg record).2 := by
  have hb : ((LoggerHandler._get_fields_basic cfg record []).lookup "MESSAGE").isSome := by
    unfold LoggerHandler._get_fields_basic
    apply dictInsert_lookup_isSome
    apply dictInsert_lookup_isSome
    apply dictInsert_lookup_isSome
    rw [dictInsert_lookup_self]
    rfl
  have hm : ((LoggerHandler._get_fields_metadata record
      (LoggerHandler._get_fields_basic cfg record [])).lookup "MESSAGE").isSome := by
    unfold LoggerHandler._get_fields_metadata
    apply dictInsert_lookup_isSome
    apply dictInsert_lookup_isSome
    apply dictInsert_lookup_isSome
    apply dictInsert_lookup_isSome
    apply dictInsert_lookup_isSome
    exact hb
  have he : ((LoggerHandler._get_fields_exception record
      (LoggerHandler._get_fields_metadata record
        (LoggerHandler._get_fields_basic cfg record []))).lookup "MESSAGE").isSome := by
    unfold LoggerHandler._get_fields_exception
    cases hex : record.excInfo with
    | none => exact hm
    | some e =>
      apply dictInsert_lookup_isSome
      apply dictInsert_lookup_isSome
      exact hm
  have hf : ((LoggerHandler._get_fields cfg record true).lookup "MESSAGE").isSome := by
    cases hgf : record.glib_fields with
    | none =>
      simp only [LoggerHandler._get_fields, LoggerHandler._get_fields_record, hgf, if_true]
      exact he
    | some d =>
      simp only [LoggerHandler._get_fields, LoggerHandler._get_fields_record, hgf, if_true]
      exact dictUpdate_lookup_isSome d _ "MESSAGE" he
  have hne : (LoggerHandler._get_fields cfg record true).lookup "MESSAGE" ≠ none :=
    Option.ne_none_iff_isSome.mpr hf
  refine ⟨hne, ?_⟩
  simp only [LoggerHandler.emit, convert_fields_dict_eq]
  rw [if_neg hne]
  simp only [List.nil_append]
  intro hmem
  rcases List.mem_flatMap.mp hmem with ⟨kv, _, hin⟩
  exact missingMessage_not_in_convertFieldValue kv.2 hin

end GlibLogBridge
